import Mathlib

/-!
Verification of the message-delivery core of the `whatsapp-messaging-api`
repository against its natural-language specification.

The TypeScript sources are shallowly embedded: pure helpers become Lean
functions, Prisma tables become Lean lists of rows held in an explicit `Db`
state, the in-memory socket map becomes an association list, and each
controller/service function becomes a state-passing Lean function returning
its HTTP-level outcome together with the updated state.  A Prisma `findFirst`
with no `orderBy` is modelled as the first matching row in table order; a
`findFirst` with `orderBy` is modelled as the first matching row of the
stably ordered table.
-/

namespace WaApi

/-! ### Phone-number normalization (src/src/utils/atomics.ts, `formatPhoneNumber`) -/

/-- Decidable, kernel-reducible test that the first list is a prefix of the
second (`String.prototype.startsWith` over the character list). -/
def startsWithChars : List Char → List Char → Bool
  | [], _ => true
  | _ :: _, [] => false
  | p :: ps, c :: cs => p = c && startsWithChars ps cs

/-- `phoneNumber.replace(/\D/g, "")`: keep only decimal digits. -/
def stripNonDigits (s : String) : List Char :=
  s.data.filter Char.isDigit

/-- Embedding of `formatPhoneNumber` from `src/src/utils/atomics.ts`:
strip non-digits, rewrite a leading `"0"` to `"62"`, otherwise prepend
`"62"` when the country code is missing. -/
def formatPhoneNumber (phoneNumber : String) : String :=
  let cleaned := stripNonDigits phoneNumber
  String.mk
    (if startsWithChars ['0'] cleaned then '6' :: '2' :: cleaned.drop 1
     else if ¬ startsWithChars ['6', '2'] cleaned then '6' :: '2' :: cleaned
     else cleaned)

/-! ### Base64 (binary payload encoding used by the session store serializer) -/

/-- The standard base64 alphabet. -/
def b64Alphabet : List Char :=
  ['A', 'B', 'C', 'D', 'E', 'F', 'G', 'H', 'I', 'J', 'K', 'L', 'M',
   'N', 'O', 'P', 'Q', 'R', 'S', 'T', 'U', 'V', 'W', 'X', 'Y', 'Z',
   'a', 'b', 'c', 'd', 'e', 'f', 'g', 'h', 'i', 'j', 'k', 'l', 'm',
   'n', 'o', 'p', 'q', 'r', 's', 't', 'u', 'v', 'w', 'x', 'y', 'z',
   '0', '1', '2', '3', '4', '5', '6', '7', '8', '9', '+', '/']

/-- Character for a 6-bit group. -/
def b64Char (n : Nat) : Char :=
  b64Alphabet.getD (n % 64) 'A'

/-- Index of a character in the base64 alphabet. -/
def b64Sextet (c : Char) : Option Nat :=
  b64Alphabet.findIdx? (fun x => x = c)

/-- Base64-encode a byte list, three bytes to four characters, with `=`
padding for a trailing one- or two-byte group. -/
def b64EncodeChunks : List Nat → List Char
  | [] => []
  | [b1] => [b64Char (b1 / 4), b64Char (b1 % 4 * 16), '=', '=']
  | [b1, b2] =>
      [b64Char (b1 / 4), b64Char (b1 % 4 * 16 + b2 / 16), b64Char (b2 % 16 * 4), '=']
  | b1 :: b2 :: b3 :: rest =>
      b64Char (b1 / 4) :: b64Char (b1 % 4 * 16 + b2 / 16) ::
        b64Char (b2 % 16 * 4 + b3 / 64) :: b64Char (b3 % 64) :: b64EncodeChunks rest

/-- Base64-decode a character list produced by `b64EncodeChunks`. -/
def b64DecodeChunks : List Char → Option (List Nat)
  | [] => some []
  | c1 :: c2 :: c3 :: c4 :: rest =>
      match b64Sextet c1, b64Sextet c2 with
      | some s1, some s2 =>
        if c3 = '=' then
          if c4 = '=' ∧ rest = [] then some [s1 * 4 + s2 / 16] else none
        else
          match b64Sextet c3 with
          | some s3 =>
            if c4 = '=' then
              if rest = [] then some [s1 * 4 + s2 / 16, s2 % 16 * 16 + s3 / 4] else none
            else
              match b64Sextet c4, b64DecodeChunks rest with
              | some s4, some tl =>
                  some ((s1 * 4 + s2 / 16) :: (s2 % 16 * 16 + s3 / 4) :: (s3 % 4 * 64 + s4) :: tl)
              | _, _ => none
          | none => none
      | _, _ => none
  | _ => none

/-! ### JSON values with binary payloads (session store serialization, src/unnamed/part_002) -/

/-- A JSON-shaped value as handled by the session store: the usual JSON
constructors plus `jbuf`, a binary byte-array payload (a Node `Buffer`),
which may occur nested at arbitrary depth.  The serialized string stored in
the `session.data` column is abstracted as its parsed JSON tree. -/
inductive JVal where
  | jnull
  | jbool (b : Bool)
  | jnum (n : Int)
  | jstr (s : String)
  | jarr (elems : List JVal)
  | jobj (fields : List (String × JVal))
  | jbuf (bytes : List Nat)
deriving Repr

/-- Recognize the explicit binary type-tag shape
`{"type": "Buffer", "data": <base64 string>}` and return the base64 payload. -/
def bufTagPayload : List (String × JVal) → Option String
  | [("type", .jstr "Buffer"), ("data", .jstr s)] => some s
  | _ => none

/-- Modelled from the spec: the serializer used by the session store write
path (the transport library's `BufferJSON.replacer` composed with
`JSON.stringify`, not part of src/).  Binary segments are encoded as
explicit `(typeTag, base64)` pairs; everything else is kept as is. -/
def jsonEncode : JVal → JVal
  | .jnull => .jnull
  | .jbool b => .jbool b
  | .jnum n => .jnum n
  | .jstr s => .jstr s
  | .jbuf bs =>
      .jobj [("type", .jstr "Buffer"), ("data", .jstr (String.mk (b64EncodeChunks bs)))]
  | .jarr xs => .jarr (xs.attach.map fun x => jsonEncode x.val)
  | .jobj fs => .jobj (fs.attach.map fun f => (f.val.1, jsonEncode f.val.2))
decreasing_by
  · have h1 := List.sizeOf_lt_of_mem x.property
    simp only [JVal.jarr.sizeOf_spec]
    omega
  · have h1 := List.sizeOf_lt_of_mem f.property
    have h2 : sizeOf f.val.2 < sizeOf f.val := by
      obtain ⟨⟨k, v⟩, hf⟩ := f
      simp only [Prod.mk.sizeOf_spec]
      omega
    simp only [JVal.jobj.sizeOf_spec]
    omega

/-- Modelled from the spec: the deserializer used by the session store read
path (`JSON.parse` with the transport library's `BufferJSON.reviver`, not
part of src/): decodes children bottom-up, then turns any object of the
explicit binary type-tag shape back into a byte-array payload. -/
def jsonDecode : JVal → JVal
  | .jnull => .jnull
  | .jbool b => .jbool b
  | .jnum n => .jnum n
  | .jstr s => .jstr s
  | .jbuf bs => .jbuf bs
  | .jarr xs => .jarr (xs.attach.map fun x => jsonDecode x.val)
  | .jobj fs =>
      let fs2 := fs.attach.map fun f => (f.val.1, jsonDecode f.val.2)
      match bufTagPayload fs2 with
      | some s => .jbuf ((b64DecodeChunks s.data).getD [])
      | none => .jobj fs2
decreasing_by
  · have h1 := List.sizeOf_lt_of_mem x.property
    simp only [JVal.jarr.sizeOf_spec]
    omega
  · have h1 := List.sizeOf_lt_of_mem f.property
    have h2 : sizeOf f.val.2 < sizeOf f.val := by
      obtain ⟨⟨k, v⟩, hf⟩ := f
      simp only [Prod.mk.sizeOf_spec]
      omega
    simp only [JVal.jobj.sizeOf_spec]
    omega

/-- Well-formedness of a stored value: every binary byte is an actual byte
(< 256), and no plain object is itself the binary type-tag shape (which
would collide with the encoding of a binary payload). -/
def jvalOK : JVal → Bool
  | .jbuf bs => bs.all (fun b => decide (b < 256))
  | .jarr xs => xs.attach.all fun x => jvalOK x.val
  | .jobj fs => (bufTagPayload fs).isNone && (fs.attach.all fun f => jvalOK f.val.2)
  | _ => true
decreasing_by
  · have h1 := List.sizeOf_lt_of_mem x.property
    simp only [JVal.jarr.sizeOf_spec]
    omega
  · have h1 := List.sizeOf_lt_of_mem f.property
    have h2 : sizeOf f.val.2 < sizeOf f.val := by
      obtain ⟨⟨k, v⟩, hf⟩ := f
      simp only [Prod.mk.sizeOf_spec]
      omega
    simp only [JVal.jobj.sizeOf_spec]
    omega

/-! ### Session store (src/unnamed/part_002, `usePostgresAuthState`) -/

/-- Embedding of `fixId`: `id.replace(/\x2f/g, "__").replace(/:/g, "-")` —
every slash becomes a double underscore, every colon becomes a dash. -/
def fixId (id : String) : String :=
  String.mk ((id.data.map fun c =>
    if c = '/' then ['_', '_'] else if c = ':' then ['-'] else [c]).flatten)

/-- One row of the `session` table: surrogate id, owning account, normalized
identifier, and the stored (serialized) value. -/
structure SessionRow where
  rowId : Nat
  whatsappAccountId : Nat
  identifier : String
  data : JVal

/-- The `@@unique([whatsappAccountId, identifier])` key of the `session`
table. -/
def sessionKeyMatches (a : Nat) (ident : String) (r : SessionRow) : Bool :=
  r.whatsappAccountId = a && r.identifier = ident

/-- Embedding of `write` from `usePostgresAuthState`: serialize the value,
normalize the identifier with `fixId`, and `prisma.session.upsert` keyed by
`(whatsappAccountId, identifier)`. -/
def sessionWrite (rows : List SessionRow) (accountId : Nat) (id : String) (v : JVal) :
    List SessionRow :=
  if rows.any (sessionKeyMatches accountId (fixId id)) then
    rows.map fun r =>
      if sessionKeyMatches accountId (fixId id) r then { r with data := jsonEncode v } else r
  else
    rows ++ [⟨rows.length, accountId, fixId id, jsonEncode v⟩]

/-- Embedding of `read` from `usePostgresAuthState`:
`prisma.session.findUnique` on `(whatsappAccountId, fixId id)`, deserializing
the stored value; absent keys yield `none`. -/
def sessionRead (rows : List SessionRow) (accountId : Nat) (id : String) : Option JVal :=
  (rows.find? (sessionKeyMatches accountId (fixId id))).map fun r => jsonDecode r.data

/-! ### Data model (prisma/schema.prisma) and in-process connection state -/

inductive WhatsappAccountStatus where
  | ACTIVE
  | INACTIVE
deriving DecidableEq, Repr

/-- One row of `whatsapp_accounts`: id, phone number, status, and the
soft-delete marker `deletedAt` (`none` = not soft-deleted). -/
structure WhatsappAccount where
  id : Nat
  phoneNumber : String
  status : WhatsappAccountStatus
  deletedAt : Option Nat
deriving DecidableEq, Repr

inductive MessageStatus where
  | SENT
  | PENDING
  | FAILED
deriving DecidableEq, Repr

/-- One row of `message_logs`. -/
structure MessageLog where
  id : String
  messageId : String
  accountId : Nat
  status : MessageStatus
  sentTime : Nat
  retryCount : Nat
  sendBy : Nat
deriving DecidableEq, Repr

/-- The database state used by the router, dispatcher and connection manager:
the `whatsapp_accounts`, `message_logs` and `recipient_account_map` tables,
each as its list of rows in table order. -/
structure Db where
  accounts : List WhatsappAccount
  messageLogs : List MessageLog
  recipientMap : List (String × Nat)
deriving DecidableEq, Repr

/-- In-process connection state: the `whatsappSockets` map (accountId to an
abstract handle token — each `makeWASocket` call yields a fresh token) and
the `socketStatus` map. -/
structure ConnState where
  sockets : List (Nat × Nat)
  socketStatus : List (Nat × String)
deriving DecidableEq, Repr

/-- `prisma.whatsappAccount.findUnique({ where: { id } })`. -/
def findAccount (db : Db) (accountId : Nat) : Option WhatsappAccount :=
  db.accounts.find? fun a => a.id = accountId

/-- Status column of an account row. -/
def accountStatus (db : Db) (accountId : Nat) : Option WhatsappAccountStatus :=
  (findAccount db accountId).map fun a => a.status

/-- `whatsappSockets[accountId]` is defined. -/
def hasSocket (sockets : List (Nat × Nat)) (accountId : Nat) : Bool :=
  sockets.any fun s => s.1 = accountId

/-- The handle token stored for an account, if any. -/
def lookupSocket (sockets : List (Nat × Nat)) (accountId : Nat) : Option Nat :=
  (sockets.find? fun s => s.1 = accountId).map Prod.snd

/-- `whatsappSockets[accountId] = sock`: JS object key assignment. -/
def upsertSocket (sockets : List (Nat × Nat)) (accountId handle : Nat) : List (Nat × Nat) :=
  if sockets.any (fun s => s.1 = accountId) then
    sockets.map fun s => if s.1 = accountId then (accountId, handle) else s
  else sockets ++ [(accountId, handle)]

/-- Number of `message_logs` rows associated with an account
(the relation count used by `orderBy: { messageLog: { _count: "asc" } }`). -/
def messageLogCount (db : Db) (accountId : Nat) : Nat :=
  (db.messageLogs.filter fun m => m.accountId = accountId).length

/-! ### Account router (src/src/services/whatsappService.ts,
`getOrCreateAccountForRecipient`; src/src/controllers/messageController.ts,
`sendMessage` account selection) -/

inductive RouteError where
  | noActiveAccount
  | noConnection (accountId : Nat)
deriving DecidableEq, Repr

/-- `prisma.recipientAccountMap.upsert` keyed by `recipientNumber`. -/
def upsertRecipient (m : List (String × Nat)) (recipientNumber : String) (accountId : Nat) :
    List (String × Nat) :=
  if m.any (fun p => p.1 = recipientNumber) then
    m.map fun p => if p.1 = recipientNumber then (p.1, accountId) else p
  else m ++ [(recipientNumber, accountId)]

/-- The affinity reuse test of `getOrCreateAccountForRecipient`: an existing
mapping whose account is currently ACTIVE and has a live in-process socket.
Returns the mapped account id when usable. -/
def affinityAccount (db : Db) (sockets : List (Nat × Nat)) (formatted : String) : Option Nat :=
  match db.recipientMap.find? (fun p => p.1 = formatted) with
  | some (_, mappedId) =>
      match findAccount db mappedId with
      | some acc =>
          if acc.status = .ACTIVE && hasSocket sockets mappedId then some mappedId else none
      | none => none
  | none => none

/-- Embedding of `getOrCreateAccountForRecipient`
(src/src/services/whatsappService.ts): normalize the recipient, reuse a
usable affinity mapping, otherwise `findFirst({ where: { status: ACTIVE } })`
— the first ACTIVE row in table order, with no ordering clause — then require
a live socket for it and upsert the mapping. -/
def getOrCreateAccountForRecipient (db : Db) (sockets : List (Nat × Nat))
    (recipientNumber : String) : Except RouteError (Nat × Db) :=
  match affinityAccount db sockets (formatPhoneNumber recipientNumber) with
  | some mappedId => .ok (mappedId, db)
  | none =>
      match db.accounts.find? (fun a => a.status = .ACTIVE) with
      | none => .error .noActiveAccount
      | some acc =>
          if hasSocket sockets acc.id then
            .ok (acc.id,
              { db with recipientMap :=
                  upsertRecipient db.recipientMap (formatPhoneNumber recipientNumber) acc.id })
          else .error (.noConnection acc.id)

/-- First element of the list minimizing `f`, earlier elements winning ties:
the row returned by `findFirst` under an ascending `orderBy` on `f` when the
underlying row order is the table order. -/
def pickMinBy (f : WhatsappAccount → Nat) : List WhatsappAccount → Option WhatsappAccount
  | [] => none
  | x :: xs =>
      match pickMinBy f xs with
      | none => some x
      | some y => if f x ≤ f y then some x else some y

/-- Embedding of the account selection in the `sendMessage` controller
(src/src/controllers/messageController.ts lines 19–34):
`findFirst({ where: { status: ACTIVE, deletedAt: null },
orderBy: [{ messageLog: { _count: "asc" } }] })`. -/
def selectLeastLoadedAccount (db : Db) : Option WhatsappAccount :=
  pickMinBy (fun a => messageLogCount db a.id)
    (db.accounts.filter fun a => a.status = .ACTIVE && a.deletedAt = none)

/-! ### Dispatcher: cancellation (src/src/controllers/messageController.ts,
`cancelPendingMessage`) and retry policy (src/src/queues/messageQueue.ts,
src/src/config/whatsapp.ts) -/

inductive CancelResult where
  | notFound
  | notPending
  | canceled
deriving DecidableEq, Repr

/-- Modelled from the spec: `messageQueue.cancelJob` — the scheduler-side
best-effort removal of a still-queued job, referenced by the controller but
not present under src/; it removes the job from the pending queue and does
not touch stored rows. -/
def cancelJob (queue : List String) (messageId : String) : List String :=
  queue.filter fun j => j ≠ messageId

/-- Embedding of `cancelPendingMessage`
(src/src/controllers/messageController.ts lines 127–160): 404 when the row is
absent, 400 (failure, no mutation) when status is not PENDING, otherwise
update the row to FAILED and remove the job from the scheduler. -/
def cancelPendingMessage (db : Db) (queue : List String) (messageId : String) :
    CancelResult × Db × List String :=
  match db.messageLogs.find? (fun m => m.id = messageId) with
  | none => (.notFound, db, queue)
  | some log =>
      if log.status ≠ MessageStatus.PENDING then (.notPending, db, queue)
      else
        (.canceled,
          { db with
              messageLogs := db.messageLogs.map fun m =>
                if m.id = messageId then { m with status := .FAILED } else m },
          cancelJob queue messageId)

/-- JavaScript `parseInt(s, 10)` restricted to the non-negative case: value of
the longest digit prefix, `none` (`NaN`) when there is none. -/
def jsParseInt (s : String) : Option Nat :=
  let ds := s.data.takeWhile Char.isDigit
  if ds.isEmpty then none
  else some (ds.foldl (fun n c => n * 10 + (c.toNat - 48)) 0)

/-- Embedding of `config.maxRetryCount` (src/src/config/whatsapp.ts):
`parseInt(process.env.MAX_RETRY_COUNT || "3", 10)` — an absent or empty
environment variable falls back to `"3"`. -/
def configMaxRetryCount (env : Option String) : Option Nat :=
  jsParseInt (match env with
    | none => "3"
    | some e => if e = "" then "3" else e)

/-- The job state tracked by the scheduler: stored status plus retry count. -/
structure RetryState where
  status : MessageStatus
  retryCount : Nat
deriving DecidableEq, Repr

/-- Modelled from the spec: one scheduler step for a claimed job whose
delivery attempt fails (the better-queue retry driver, library code not under
src/): a failing attempt on a PENDING job increments the retry count while
retries remain and marks the job FAILED terminally once the retry count has
reached the configured maximum; terminal states make no further attempt.
Returns the new state and whether a delivery attempt was made. -/
def retryStepFail (maxRetries : Nat) (s : RetryState) : RetryState × Bool :=
  match s.status with
  | .PENDING =>
      if s.retryCount < maxRetries then (⟨.PENDING, s.retryCount + 1⟩, true)
      else (⟨.FAILED, s.retryCount⟩, true)
  | _ => (s, false)

/-- Modelled from the spec: the complete run of a job all of whose delivery
attempts fail, starting from retry count `r`; returns the total number of
delivery attempts made and the terminal status. -/
def failRun (maxRetries r : Nat) : Nat × MessageStatus :=
  if r < maxRetries then
    ((failRun maxRetries (r + 1)).1 + 1, (failRun maxRetries (r + 1)).2)
  else (1, .FAILED)
termination_by maxRetries - r

/-! ### Connection manager (src/src/services/whatsappService.ts) -/

/-- `DisconnectReason.loggedOut` of the transport library. -/
def loggedOutStatusCode : Nat := 401

/-- `prisma.whatsappAccount.update({ where: { id } , data: { status } })`:
`none` models the thrown `P2025` error when the row no longer exists. -/
def updateAccountStatus (db : Db) (accountId : Nat) (st : WhatsappAccountStatus) :
    Option Db :=
  if db.accounts.any (fun a => a.id = accountId) then
    some { db with
      accounts := db.accounts.map fun a =>
        if a.id = accountId then { a with status := st } else a }
  else none

/-- `delete whatsappSockets[accountId]; delete socketStatus[accountId]`. -/
def removeConn (c : ConnState) (accountId : Nat) : ConnState :=
  ⟨c.sockets.filter fun s => ¬ s.1 = accountId,
   c.socketStatus.filter fun s => ¬ s.1 = accountId⟩

/-- Outcome of the `connection === "close"` handler: the database, the
in-process connection state, and the delay of the scheduled reconnect
(`setTimeout(() => initWhatsAppConnection(accountId), 5000)`), if any. -/
structure CloseOutcome where
  db : Db
  conn : ConnState
  reconnectDelayMs : Option Nat
deriving DecidableEq, Repr

/-- Embedding of the `connection === "close"` branch of the
`connection.update` listener registered by `initWhatsAppConnection`
(src/src/services/whatsappService.ts lines 58–93): persist INACTIVE (on a
missing row: drop the handles and stop); then reconnect after 5000 ms unless
the disconnect status code is the terminal `loggedOut`, in which case the
handles are discarded and no reconnect is scheduled. -/
def handleConnectionClose (db : Db) (conn : ConnState) (accountId : Nat)
    (lastDisconnectStatusCode : Option Nat) : CloseOutcome :=
  match updateAccountStatus db accountId .INACTIVE with
  | none => ⟨db, removeConn conn accountId, none⟩
  | some db1 =>
      if lastDisconnectStatusCode ≠ some loggedOutStatusCode then ⟨db1, conn, some 5000⟩
      else ⟨db1, removeConn conn accountId, none⟩

/-- Embedding of `initWhatsAppConnection` (src/src/services/whatsappService.ts
lines 20–124), state effects only: look up the account (a missing row throws,
is caught, and the function still returns `null`); otherwise create a fresh
socket (`nextHandle` is the supply of fresh handle tokens) and store it under
the account id, unconditionally overwriting any existing handle.  Session
loading and listener registration have no effect on the modelled state.
Returns the `string | null` result, the connection state, and the new handle
supply. -/
def initWhatsAppConnection (db : Db) (conn : ConnState) (nextHandle : Nat)
    (accountId : Nat) : Option String × ConnState × Nat :=
  match findAccount db accountId with
  | none => (none, conn, nextHandle)
  | some _ =>
      (none, ⟨upsertSocket conn.sockets accountId nextHandle, conn.socketStatus⟩,
        nextHandle + 1)

/-- Embedding of `autoConnectWhatsAppAccounts`
(src/src/services/whatsappService.ts lines 333–345):
`findMany({})` — no filter — then `initWhatsAppConnection` for each account
in turn, awaited sequentially.  Returns the ordered list of account ids
opened together with the final connection state and handle supply. -/
def autoConnectWhatsAppAccounts (db : Db) (conn : ConnState) (nextHandle : Nat) :
    List Nat × ConnState × Nat :=
  db.accounts.foldl
    (fun acc a =>
      let r := initWhatsAppConnection db acc.2.1 acc.2.2 a.id
      (acc.1 ++ [a.id], r.2.1, r.2.2))
    ([], conn, nextHandle)

/-! ### Interactive (button) message submission (src/unnamed/part_004,
`sendMessage`, button branch) -/

/-- JavaScript truthiness of an optional string field: absent (`undefined`)
and the empty string are falsy. -/
def truthy : Option String → Bool
  | none => false
  | some s => ¬ s = ""

/-- A row of a `single_select` section as received in the request body;
`none` models an absent field. -/
structure SelectRow where
  title : Option String
  id : Option String
  description : Option String
  header : Option String
deriving DecidableEq, Repr

/-- A section of a `single_select` button; `rows = none` models an absent or
non-array `rows` field. -/
structure SelectSection where
  title : Option String
  rows : Option (List SelectRow)
  highlight_label : Option String
deriving DecidableEq, Repr

/-- A button object as received in the request body, with every
action-specific field optional; `sections = none` models an absent or
non-array `sections` field. -/
structure JsButton where
  type : Option String
  display_text : Option String
  id : Option String
  url : Option String
  merchant_url : Option String
  copy_code : Option String
  title : Option String
  sections : Option (List SelectSection)
deriving DecidableEq, Repr

/-- Row check of the `single_select` validation loop: `row.title` and
`row.id` must be truthy. -/
def validateRow (r : SelectRow) : Option String :=
  if ¬ truthy r.title ∨ ¬ truthy r.id then
    some "Each row in single_select sections must have title and id properties"
  else none

/-- Section check of the `single_select` validation loop: `section.title`
truthy, `section.rows` an array, then every row checked; an empty `rows`
array passes the loop. -/
def validateSection (s : SelectSection) : Option String :=
  if ¬ truthy s.title ∨ s.rows = none then
    some "Each section in single_select must have title and rows properties"
  else (s.rows.getD []).findSome? validateRow

/-- Per-button validation of the `message_type === "button"` branch of
`sendMessage` (src/unnamed/part_004 lines 42–126), returning the first error
message, if any. -/
def validateButton (b : JsButton) : Option String :=
  if ¬ truthy b.type ∨ ¬ truthy b.display_text then
    some "Each button must have type and display_text properties"
  else if b.type = some "quick_reply" then
    if ¬ truthy b.id then some "quick_reply button must have id property" else none
  else if b.type = some "cta_url" then
    if ¬ truthy b.url then some "cta_url button must have url property" else none
  else if b.type = some "cta_call" then
    if ¬ truthy b.id then some "cta_call button must have id property" else none
  else if b.type = some "cta_copy" then
    if ¬ truthy b.id ∨ ¬ truthy b.copy_code then
      some "cta_copy button must have id and copy_code properties"
    else none
  else if b.type = some "single_select" then
    if ¬ truthy b.title ∨ b.sections = none then
      some "single_select button must have title and sections properties"
    else (b.sections.getD []).findSome? validateSection
  else some "Unknown button type"

/-- Outcome of submitting a button message: synchronous rejection with an
error message, or enqueueing of the job. -/
inductive SubmitResult where
  | rejected (msg : String)
  | enqueued
deriving DecidableEq, Repr

/-- Embedding of the button branch of `sendMessage` (src/unnamed/part_004):
the `buttons` array must be present and non-empty, every button must pass
`validateButton`, and only then is the job enqueued
(`messageQueue.queueButtonMessage`). -/
def submitButtonMessage (buttons : Option (List JsButton)) : SubmitResult :=
  match buttons with
  | none => .rejected "buttons array is required for button message type"
  | some bs =>
      if bs.isEmpty then .rejected "buttons array is required for button message type"
      else
        match bs.findSome? validateButton with
        | some e => .rejected e
        | none => .enqueued

/-! ### Concrete states used by counterexamples and witnesses -/

/-- Two ACTIVE accounts; account 1 has five message-log rows, account 2 has
two. -/
def twoAccountDb : Db :=
  { accounts :=
      [⟨1, "628111", .ACTIVE, none⟩, ⟨2, "628222", .ACTIVE, none⟩],
    messageLogs :=
      [⟨"m1", "w1", 1, .SENT, 0, 0, 1⟩, ⟨"m2", "w2", 1, .SENT, 0, 0, 1⟩,
       ⟨"m3", "w3", 1, .SENT, 0, 0, 1⟩, ⟨"m4", "w4", 1, .SENT, 0, 0, 1⟩,
       ⟨"m5", "w5", 1, .SENT, 0, 0, 1⟩, ⟨"m6", "w6", 2, .SENT, 0, 0, 1⟩,
       ⟨"m7", "w7", 2, .SENT, 0, 0, 1⟩],
    recipientMap := [] }

/-- Live sockets for both accounts of `twoAccountDb`. -/
def twoAccountSockets : List (Nat × Nat) := [(1, 100), (2, 200)]

/-- A `single_select` button with an empty `sections` array. -/
def emptySelectButton : JsButton :=
  ⟨some "single_select", some "Choose", none, none, none, none, some "Menu", some []⟩

/-- A job table holding a single SENT message. -/
def sentLogDb : Db :=
  { accounts := [], messageLogs := [⟨"j1", "w1", 1, .SENT, 0, 0, 1⟩], recipientMap := [] }

/-- A well-formed `cta_copy` button. -/
def goodCopyButton : JsButton :=
  ⟨some "cta_copy", some "Copy", some "b1", none, none, some "CODE1", none, none⟩

/-- A well-formed `single_select` button with one section and one row. -/
def goodSelectButton : JsButton :=
  ⟨some "single_select", some "Pick", none, none, none, none, some "Menu",
    some [⟨some "Sec", some [⟨some "Row", some "r1", none, none⟩], none⟩]⟩

/-! ### Theorems -/

theorem pickMinBy_eq_none_iff (f : WhatsappAccount → Nat) :
    ∀ l : List WhatsappAccount, pickMinBy f l = none ↔ l = [] := by
  intro l
  cases l with
  | nil => simp [pickMinBy]
  | cons x xs =>
      constructor
      · intro h
        exfalso
        simp only [pickMinBy] at h
        cases h2 : pickMinBy f xs with
        | none => rw [h2] at h; simp at h
        | some y =>
            rw [h2] at h
            by_cases hle : f x ≤ f y <;> simp [hle] at h
      · intro h
        exact absurd h (List.cons_ne_nil x xs)

theorem pickMinBy_some_spec (f : WhatsappAccount → Nat) :
    ∀ (l : List WhatsappAccount) (a : WhatsappAccount), pickMinBy f l = some a →
      a ∈ l ∧ ∀ b ∈ l, f a ≤ f b := by
  intro l
  induction l with
  | nil => intro a h; simp [pickMinBy] at h
  | cons x xs ih =>
      intro a h
      simp only [pickMinBy] at h
      cases h2 : pickMinBy f xs with
      | none =>
          rw [h2] at h
          simp only [Option.some.injEq] at h
          subst h
          have hxs : xs = [] := (pickMinBy_eq_none_iff f xs).mp h2
          subst hxs
          refine ⟨List.mem_cons_self x [], ?_⟩
          intro b hb
          rcases List.mem_singleton.mp hb with rfl
          exact le_rfl
      | some y =>
          rw [h2] at h
          obtain ⟨hymem, hymin⟩ := ih y h2
          by_cases hle : f x ≤ f y
          · simp only [hle, if_true, Option.some.injEq] at h
            subst h
            refine ⟨List.mem_cons_self _ _, ?_⟩
            intro b hb
            rcases List.mem_cons.mp hb with rfl | hb
            · exact le_rfl
            · exact le_trans hle (hymin b hb)
          · simp only [hle, if_false, Option.some.injEq] at h
            subst h
            refine ⟨List.mem_cons_of_mem x hymem, ?_⟩
            intro b hb
            rcases List.mem_cons.mp hb with rfl | hb
            · exact le_of_lt (lt_of_not_le hle)
            · exact hymin b hb

/-- C1 (amended): for a recipient with no usable affinity, the `sendMessage`
enqueue path selects an ACTIVE, non-deleted account with the fewest
message-log rows (ties resolved by table order, with no account-id
tie-break), and reports no-capacity exactly when no ACTIVE non-deleted
account exists; `getOrCreateAccountForRecipient`, by contrast, falls back to
the first ACTIVE account in table order regardless of message-log counts,
and fails with the no-capacity error when no ACTIVE account exists. -/
theorem C1_accountResolution (db : Db) (sockets : List (Nat × Nat)) (r : String) :
    (∀ a, selectLeastLoadedAccount db = some a →
      a ∈ db.accounts ∧ a.status = .ACTIVE ∧ a.deletedAt = none ∧
        ∀ b ∈ db.accounts, b.status = .ACTIVE → b.deletedAt = none →
          messageLogCount db a.id ≤ messageLogCount db b.id)
    ∧ (selectLeastLoadedAccount db = none ↔
        ∀ a ∈ db.accounts, ¬(a.status = .ACTIVE ∧ a.deletedAt = none))
    ∧ (affinityAccount db sockets (formatPhoneNumber r) = none →
        ∀ aid db2, getOrCreateAccountForRecipient db sockets r = .ok (aid, db2) →
          (db.accounts.find? (fun a => a.status = .ACTIVE)).map (fun a => a.id) = some aid)
    ∧ ((∀ a ∈ db.accounts, a.status ≠ .ACTIVE) →
        getOrCreateAccountForRecipient db sockets r = .error .noActiveAccount) := by
  refine ⟨?_, ?_, ?_, ?_⟩
  · intro a h
    obtain ⟨hmem, hmin⟩ := pickMinBy_some_spec _ _ a h
    rw [List.mem_filter] at hmem
    obtain ⟨hmem, hpred⟩ := hmem
    simp only [Bool.and_eq_true, decide_eq_true_eq] at hpred
    refine ⟨hmem, hpred.1, hpred.2, ?_⟩
    intro b hb hbA hbD
    exact hmin b (List.mem_filter.mpr ⟨hb, by simp [hbA, hbD]⟩)
  · unfold selectLeastLoadedAccount
    rw [pickMinBy_eq_none_iff, List.filter_eq_nil_iff]
    constructor
    · intro h a ha hpred
      exact h a ha (by simp [hpred.1, hpred.2])
    · intro h a ha hpred
      simp only [Bool.and_eq_true, decide_eq_true_eq] at hpred
      exact h a ha hpred
  · intro haff aid db2 hok
    unfold getOrCreateAccountForRecipient at hok
    rw [haff] at hok
    cases hfind : db.accounts.find? (fun a => a.status = .ACTIVE) with
    | none =>
        rw [hfind] at hok
        simp at hok
    | some acc =>
        rw [hfind] at hok
        by_cases hsock : hasSocket sockets acc.id = true
        · simp only [hsock, if_true, Except.ok.injEq, Prod.mk.injEq] at hok
          simpa using congrArg some hok.1
        · simp [hsock] at hok
  · intro hnone
    have haff : affinityAccount db sockets (formatPhoneNumber r) = none := by
      unfold affinityAccount
      cases hm : db.recipientMap.find? (fun p => p.1 = formatPhoneNumber r) with
      | none => rfl
      | some p =>
          obtain ⟨ps, pid⟩ := p
          dsimp only
          cases hfa : findAccount db pid with
          | none => rfl
          | some acc =>
              have hmem : acc ∈ db.accounts := by
                unfold findAccount at hfa
                exact List.mem_of_find?_eq_some hfa
              have hne : acc.status ≠ .ACTIVE := hnone acc hmem
              simp [hne]
    have hfind : db.accounts.find? (fun a => a.status = .ACTIVE) = none := by
      rw [List.find?_eq_none]
      intro a ha
      simp [hnone a ha]
    unfold getOrCreateAccountForRecipient
    rw [haff, hfind]

/-- C1 (counterexample): with no prior affinity and two ACTIVE accounts in
table order carrying 5 and 2 prior message-log rows, the spec claims the
account with 2 rows is chosen; `getOrCreateAccountForRecipient` instead
returns the first ACTIVE account in table order — the one with 5 rows. -/
theorem C1_accountResolution_counterexample :
    (match getOrCreateAccountForRecipient twoAccountDb twoAccountSockets "081234567890" with
     | .ok (aid, _) => some aid
     | .error _ => none) = some 1
    ∧ (match getOrCreateAccountForRecipient twoAccountDb twoAccountSockets "081234567890" with
       | .ok (aid, _) => some aid
       | .error _ => none) ≠ some 2
    ∧ messageLogCount twoAccountDb 1 = 5
    ∧ messageLogCount twoAccountDb 2 = 2
    ∧ twoAccountDb.recipientMap = [] := by
  refine ⟨rfl, by decide, rfl, rfl, rfl⟩

/-- C1 (witness): on the concrete two-account state the enqueue path picks
the account with 2 rows, its count is minimal, and a state with only an
INACTIVE account yields the no-capacity error. -/
theorem C1_accountResolution_witness :
    selectLeastLoadedAccount twoAccountDb = some ⟨2, "628222", .ACTIVE, none⟩
    ∧ messageLogCount twoAccountDb 2 ≤ messageLogCount twoAccountDb 1
    ∧ getOrCreateAccountForRecipient ⟨[⟨3, "p", .INACTIVE, none⟩], [], []⟩ [] "0812"
        = .error .noActiveAccount := by
  refine ⟨by decide, ?_, ?_⟩
  · exact (((C1_accountResolution twoAccountDb twoAccountSockets "081234567890").1
        ⟨2, "628222", .ACTIVE, none⟩ (by decide)).2.2.2)
      ⟨1, "628111", .ACTIVE, none⟩ (by decide) rfl rfl
  · exact (C1_accountResolution ⟨[⟨3, "p", .INACTIVE, none⟩], [], []⟩ [] "0812").2.2.2
      (by decide)

/-- C4: phone-number normalization strips non-digits, rewrites a leading
`"0"` to the country code `"62"`, prepends `"62"` when missing, and leaves
numbers already carrying the country code unchanged; in particular
`"081234567890"` and `"81234567890"` both normalize to `"6281234567890"`,
and `"6281234567890"` is unchanged. -/
theorem C4_formatPhoneNumber_spec :
    (∀ s : String,
      formatPhoneNumber s =
        (let c := stripNonDigits s
         if startsWithChars ['0'] c then String.mk ('6' :: '2' :: c.drop 1)
         else if startsWithChars ['6', '2'] c then String.mk c
         else String.mk ('6' :: '2' :: c)))
    ∧ formatPhoneNumber "081234567890" = "6281234567890"
    ∧ formatPhoneNumber "81234567890" = "6281234567890"
    ∧ formatPhoneNumber "6281234567890" = "6281234567890" := by
  refine ⟨fun s => ?_, by decide, by decide, by decide⟩
  unfold formatPhoneNumber
  by_cases h0 : startsWithChars ['0'] (stripNonDigits s) <;>
    by_cases h62 : startsWithChars ['6', '2'] (stripNonDigits s) <;>
      simp [h0, h62]

theorem b64Sextet_b64Char_fin : ∀ n : Fin 64, b64Sextet (b64Char n.val) = some n.val := by
  decide

theorem b64Char_ne_pad_fin : ∀ n : Fin 64, b64Char n.val ≠ '=' := by
  decide

theorem b64Sextet_b64Char {n : Nat} (h : n < 64) : b64Sextet (b64Char n) = some n :=
  b64Sextet_b64Char_fin ⟨n, h⟩

theorem b64Char_ne_pad (n : Nat) : b64Char n ≠ '=' := by
  have h : b64Char n = b64Char (n % 64) := by
    unfold b64Char
    rw [Nat.mod_mod_of_dvd n (by norm_num)]
  rw [h]
  exact b64Char_ne_pad_fin ⟨n % 64, Nat.mod_lt _ (by norm_num)⟩

/-- Decoding inverts encoding on lists of genuine bytes. -/
theorem b64_roundtrip :
    ∀ bs : List Nat, (∀ b ∈ bs, b < 256) →
      b64DecodeChunks (b64EncodeChunks bs) = some bs := by
  intro bs
  induction bs using b64EncodeChunks.induct with
  | case1 =>
      intro _
      simp [b64EncodeChunks, b64DecodeChunks]
  | case2 b1 =>
      intro h
      have hb1 : b1 < 256 := h b1 (by simp)
      have e1 : b64Sextet (b64Char (b1 / 4)) = some (b1 / 4) :=
        b64Sextet_b64Char (by omega)
      have e2 : b64Sextet (b64Char (b1 % 4 * 16)) = some (b1 % 4 * 16) :=
        b64Sextet_b64Char (by omega)
      simp only [b64EncodeChunks, b64DecodeChunks, e1, e2, if_pos rfl, true_and,
        if_pos (And.intro rfl rfl), if_true, Option.some.injEq, List.cons.injEq, and_true]
      omega
  | case3 b1 b2 =>
      intro h
      have hb1 : b1 < 256 := h b1 (by simp)
      have hb2 : b2 < 256 := h b2 (by simp)
      have e1 : b64Sextet (b64Char (b1 / 4)) = some (b1 / 4) :=
        b64Sextet_b64Char (by omega)
      have e2 : b64Sextet (b64Char (b1 % 4 * 16 + b2 / 16)) = some (b1 % 4 * 16 + b2 / 16) :=
        b64Sextet_b64Char (by omega)
      have e3 : b64Sextet (b64Char (b2 % 16 * 4)) = some (b2 % 16 * 4) :=
        b64Sextet_b64Char (by omega)
      simp only [b64EncodeChunks, b64DecodeChunks, e1, e2, e3,
        if_neg (b64Char_ne_pad (b2 % 16 * 4)), if_pos rfl, if_true, Option.some.injEq,
        List.cons.injEq, and_true]
      omega
  | case4 b1 b2 b3 rest ih =>
      intro h
      have hb1 : b1 < 256 := h b1 (by simp)
      have hb2 : b2 < 256 := h b2 (by simp)
      have hb3 : b3 < 256 := h b3 (by simp)
      have hrest : ∀ b ∈ rest, b < 256 := fun b hb => h b (by simp [hb])
      have e1 : b64Sextet (b64Char (b1 / 4)) = some (b1 / 4) :=
        b64Sextet_b64Char (by omega)
      have e2 : b64Sextet (b64Char (b1 % 4 * 16 + b2 / 16)) = some (b1 % 4 * 16 + b2 / 16) :=
        b64Sextet_b64Char (by omega)
      have e3 : b64Sextet (b64Char (b2 % 16 * 4 + b3 / 64)) = some (b2 % 16 * 4 + b3 / 64) :=
        b64Sextet_b64Char (by omega)
      have e4 : b64Sextet (b64Char (b3 % 64)) = some (b3 % 64) :=
        b64Sextet_b64Char (by omega)
      simp only [b64EncodeChunks, b64DecodeChunks, e1, e2, e3, e4,
        if_neg (b64Char_ne_pad (b2 % 16 * 4 + b3 / 64)),
        if_neg (b64Char_ne_pad (b3 % 64)), ih hrest, if_true, Option.some.injEq,
        List.cons.injEq, and_true]
      omega

/-- Size-based induction principle for `JVal` with member-wise hypotheses
for the two list-shaped constructors. -/
theorem JVal.inductionOn (motive : JVal → Prop)
    (hnull : motive .jnull) (hbool : ∀ b, motive (.jbool b))
    (hnum : ∀ n, motive (.jnum n)) (hstr : ∀ s, motive (.jstr s))
    (hbuf : ∀ bs, motive (.jbuf bs))
    (harr : ∀ xs, (∀ x ∈ xs, motive x) → motive (.jarr xs))
    (hobj : ∀ fs, (∀ f ∈ fs, motive f.2) → motive (.jobj fs)) :
    ∀ v, motive v := by
  have key : ∀ n v, sizeOf v ≤ n → motive v := by
    intro n
    induction n with
    | zero =>
        intro v hv
        cases v <;> simp at hv
    | succ n ih =>
        intro v hv
        cases v with
        | jnull => exact hnull
        | jbool b => exact hbool b
        | jnum m => exact hnum m
        | jstr s => exact hstr s
        | jbuf bs => exact hbuf bs
        | jarr xs =>
            refine harr xs fun x hx => ih x ?_
            have h1 := List.sizeOf_lt_of_mem hx
            simp only [JVal.jarr.sizeOf_spec] at hv
            omega
        | jobj fs =>
            refine hobj fs fun f hf => ih f.2 ?_
            have h1 := List.sizeOf_lt_of_mem hf
            have h2 : sizeOf f.2 < sizeOf f := by
              obtain ⟨k, v⟩ := f
              simp only [Prod.mk.sizeOf_spec]
              omega
            simp only [JVal.jobj.sizeOf_spec] at hv
            omega
  exact fun v => key (sizeOf v) v le_rfl

theorem jsonDecode_jstr (s : String) : jsonDecode (.jstr s) = .jstr s := by
  rw [jsonDecode]

theorem jsonEncode_jarr (xs : List JVal) :
    jsonEncode (.jarr xs) = .jarr (xs.map jsonEncode) := by
  rw [jsonEncode]
  simp [List.map_attach]

theorem jsonEncode_jobj (fs : List (String × JVal)) :
    jsonEncode (.jobj fs) = .jobj (fs.map fun f => (f.1, jsonEncode f.2)) := by
  rw [jsonEncode]
  simp [List.map_attach]

theorem jsonDecode_jarr (xs : List JVal) :
    jsonDecode (.jarr xs) = .jarr (xs.map jsonDecode) := by
  rw [jsonDecode]
  simp [List.map_attach]

theorem jsonDecode_jobj (fs : List (String × JVal)) :
    jsonDecode (.jobj fs) =
      (match bufTagPayload (fs.map fun f => (f.1, jsonDecode f.2)) with
       | some s => .jbuf ((b64DecodeChunks s.data).getD [])
       | none => .jobj (fs.map fun f => (f.1, jsonDecode f.2))) := by
  rw [jsonDecode]
  simp [List.map_attach]

theorem jvalOK_jarr (xs : List JVal) :
    jvalOK (.jarr xs) = true ↔ ∀ x ∈ xs, jvalOK x = true := by
  rw [jvalOK]
  simp [List.all_eq_true]

theorem jvalOK_jobj (fs : List (String × JVal)) :
    jvalOK (.jobj fs) = true ↔
      bufTagPayload fs = none ∧ ∀ f ∈ fs, jvalOK f.2 = true := by
  rw [jvalOK]
  simp [List.all_eq_true, Option.isNone_iff_eq_none]

/-- Round-trip of the session store serializer on well-formed values. -/
theorem jsonDecode_jsonEncode :
    ∀ v : JVal, jvalOK v = true → jsonDecode (jsonEncode v) = v := by
  intro v
  induction v using JVal.inductionOn with
  | hnull => intro _; rw [jsonEncode, jsonDecode]
  | hbool b => intro _; rw [jsonEncode, jsonDecode]
  | hnum n => intro _; rw [jsonEncode, jsonDecode]
  | hstr s => intro _; rw [jsonEncode, jsonDecode]
  | hbuf bs =>
      intro h
      have hb : ∀ b ∈ bs, b < 256 := by
        rw [jvalOK] at h
        simpa [List.all_eq_true] using h
      rw [jsonEncode, jsonDecode]
      simp only [List.attach_cons, List.attach_nil, List.map_cons, List.map_nil]
      rw [jsonDecode_jstr, jsonDecode_jstr]
      rw [show bufTagPayload
            [("type", .jstr "Buffer"), ("data", .jstr (String.mk (b64EncodeChunks bs)))]
          = some (String.mk (b64EncodeChunks bs)) from rfl]
      simp only [String.data]
      rw [b64_roundtrip bs hb]
      rfl
  | harr xs ihx =>
      intro h
      rw [jvalOK_jarr] at h
      rw [jsonEncode_jarr, jsonDecode_jarr, List.map_map]
      congr 1
      rw [show jsonDecode ∘ jsonEncode = fun x => jsonDecode (jsonEncode x) from rfl]
      calc xs.map (fun x => jsonDecode (jsonEncode x))
          = xs.map id := List.map_congr_left fun x hx => ihx x hx (h x hx)
        _ = xs := List.map_id xs
  | hobj fs ihf =>
      intro h
      rw [jvalOK_jobj] at h
      obtain ⟨htag, hfields⟩ := h
      have hmap : (fs.map fun f => (f.1, jsonEncode f.2)).map
            (fun f => (f.1, jsonDecode f.2)) = fs := by
        rw [List.map_map]
        calc fs.map ((fun f => (f.1, jsonDecode f.2)) ∘ fun f => (f.1, jsonEncode f.2))
            = fs.map id := List.map_congr_left fun f hf => by
              simp only [Function.comp_apply, id_eq]
              rw [ihf f hf (hfields f hf)]
          _ = fs := List.map_id fs
      rw [jsonEncode_jobj, jsonDecode_jobj, hmap, htag]

theorem find?_map_update (a : Nat) (ident : String) (d : JVal) :
    ∀ rows : List SessionRow, rows.any (sessionKeyMatches a ident) = true →
      ∃ r : SessionRow,
        (rows.map fun r =>
            if sessionKeyMatches a ident r then { r with data := d } else r).find?
            (sessionKeyMatches a ident) =
          some { r with data := d } := by
  intro rows
  induction rows with
  | nil => intro h; simp at h
  | cons r rs ih =>
      intro h
      by_cases hr : sessionKeyMatches a ident r = true
      · refine ⟨r, ?_⟩
        have hkey : sessionKeyMatches a ident { r with data := d }
            = sessionKeyMatches a ident r := rfl
        simp [hr, List.find?_cons, hkey]
      · have hany : rs.any (sessionKeyMatches a ident) = true := by
          simp only [List.any_cons, Bool.or_eq_true] at h
          rcases h with h | h
          · exact absurd h hr
          · exact h
        obtain ⟨r2, hr2⟩ := ih hany
        refine ⟨r2, ?_⟩
        have hkey : sessionKeyMatches a ident { r with data := d }
            = sessionKeyMatches a ident r := rfl
        simp only [Bool.not_eq_true] at hr
        simp [List.find?_cons, hkey, hr, hr2]

theorem find?_append_of_any_false (p : SessionRow → Bool) (nr : SessionRow) :
    ∀ rows : List SessionRow, rows.any p = false →
      (rows ++ [nr]).find? p = if p nr then some nr else none := by
  intro rows
  induction rows with
  | nil =>
      intro _
      cases hp : p nr <;> simp [List.find?_cons, hp]
  | cons r rs ih =>
      intro h
      simp only [List.any_cons, Bool.or_eq_false_iff] at h
      simp [List.find?_cons, h.1, ih h.2]

/-- The value read back after a write whose raw identifier normalizes to the
same key is the deserialization of what was serialized. -/
theorem sessionRead_sessionWrite_norm (rows : List SessionRow) (a : Nat)
    (id1 id2 : String) (v : JVal) (hid : fixId id1 = fixId id2) :
    sessionRead (sessionWrite rows a id1 v) a id2 = some (jsonDecode (jsonEncode v)) := by
  unfold sessionWrite sessionRead
  rw [← hid]
  cases hany : rows.any (sessionKeyMatches a (fixId id1)) with
  | true =>
      obtain ⟨r, hr⟩ := find?_map_update a (fixId id1) (jsonEncode v) rows hany
      simp only [if_true]
      rw [hr]
      simp
  | false =>
      have hnr : sessionKeyMatches a (fixId id1)
          ⟨rows.length, a, fixId id1, jsonEncode v⟩ = true := by
        simp [sessionKeyMatches]
      have hf := find?_append_of_any_false (sessionKeyMatches a (fixId id1))
        ⟨rows.length, a, fixId id1, jsonEncode v⟩ rows hany
      simp only [Bool.false_eq_true, if_false]
      rw [hf, if_pos hnr]
      simp

theorem sessionRead_sessionWrite (rows : List SessionRow) (a : Nat) (id : String) (v : JVal) :
    sessionRead (sessionWrite rows a id v) a id = some (jsonDecode (jsonEncode v)) :=
  sessionRead_sessionWrite_norm rows a id id v rfl

/-- C3 (amended): the session-store round-trip `write(a, id, v); read(a, id) = v`
holds byte-for-byte for every JSON-shaped value `v` whose binary segments
carry genuine bytes and which contains no plain object that is itself the
binary type-tag shape. -/
theorem C3_sessionStore_roundtrip (rows : List SessionRow) (a : Nat) (id : String)
    (v : JVal) (h : jvalOK v = true) :
    sessionRead (sessionWrite rows a id v) a id = some v := by
  rw [sessionRead_sessionWrite, jsonDecode_jsonEncode v h]

/-- C3 (counterexample): a plain object that happens to have the binary
type-tag shape `{"type": "Buffer", "data": "<base64>"}` is not returned
verbatim by `read` after `write` — it comes back as a binary payload — so
the round-trip does not hold for every JSON-shaped value, refuting the
claim as universally stated. -/
theorem C3_sessionStore_roundtrip_counterexample :
    sessionRead
        (sessionWrite [] 1 "creds"
          (JVal.jobj [("type", .jstr "Buffer"), ("data", .jstr "")]))
        1 "creds"
      = some (JVal.jbuf [])
    ∧ JVal.jbuf [] ≠ JVal.jobj [("type", .jstr "Buffer"), ("data", .jstr "")] := by
  constructor
  · rw [sessionRead_sessionWrite]
    rw [jsonEncode_jobj]
    simp only [List.map_cons, List.map_nil, jsonEncode]
    rw [jsonDecode_jobj]
    simp only [List.map_cons, List.map_nil, jsonDecode_jstr]
    rfl
  · intro h
    exact JVal.noConfusion h

/-- C3 (witness): a concrete nested binary payload round-trips byte-for-byte
through the session store. -/
theorem C3_sessionStore_roundtrip_witness :
    jvalOK (JVal.jobj [("k", .jbuf [0, 255, 7])]) = true
    ∧ sessionRead
        (sessionWrite [] 5 "app-state-sync-key/one"
          (JVal.jobj [("k", .jbuf [0, 255, 7])]))
        5 "app-state-sync-key/one"
      = some (JVal.jobj [("k", .jbuf [0, 255, 7])]) := by
  have hok : jvalOK (JVal.jobj [("k", JVal.jbuf [0, 255, 7])]) = true := by
    rw [jvalOK_jobj]
    refine ⟨rfl, ?_⟩
    intro f hf
    rcases List.mem_singleton.mp hf with rfl
    rw [jvalOK]
    rfl
  exact ⟨hok, C3_sessionStore_roundtrip [] 5 "app-state-sync-key/one" _ hok⟩

/-- C10: the identifier normalization `fixId` is not injective — `"a:b"` and
`"a-b"` collide, as do `"x/y"` and `"x__y"` — and consequently a write under
one raw identifier overwrites the record stored under the other: after
writing `"one"` under `"a-b"` and then `"two"` under `"a:b"` for the same
account, reading `"a-b"` returns `"two"`, so per-identifier isolation does
not hold over raw identifiers. -/
theorem C10_fixId_not_injective :
    fixId "a:b" = fixId "a-b" ∧ "a:b" ≠ "a-b"
    ∧ fixId "x/y" = fixId "x__y" ∧ "x/y" ≠ "x__y"
    ∧ sessionRead
        (sessionWrite (sessionWrite [] 1 "a-b" (.jstr "one")) 1 "a:b" (.jstr "two"))
        1 "a-b"
      = some (.jstr "two") := by
  refine ⟨by decide, by decide, by decide, by decide, ?_⟩
  rw [sessionRead_sessionWrite_norm _ _ _ _ _ (by decide : fixId "a:b" = fixId "a-b")]
  simp only [jsonEncode, jsonDecode_jstr]


/-- C2: for every stored message job, cancellation succeeds exactly when the
job's current status is PENDING; calling cancel on a job in any non-PENDING
status (e.g. SENT) returns the failure response and leaves the job table —
every row with all its fields — and the scheduler queue unchanged. -/
theorem C2_cancel_iff_pending (db : Db) (queue : List String) (mid : String) :
    ((cancelPendingMessage db queue mid).1 = .canceled ↔
      ∃ log, db.messageLogs.find? (fun m => m.id = mid) = some log
        ∧ log.status = .PENDING)
    ∧ (∀ log, db.messageLogs.find? (fun m => m.id = mid) = some log →
        log.status ≠ .PENDING →
        cancelPendingMessage db queue mid = (.notPending, db, queue)) := by
  constructor
  · unfold cancelPendingMessage
    cases hf : db.messageLogs.find? (fun m => m.id = mid) with
    | none =>
        dsimp only
        constructor
        · intro h; simp at h
        · rintro ⟨log, hlog, -⟩; cases hlog
    | some log =>
        dsimp only
        by_cases hp : log.status = MessageStatus.PENDING
        · rw [if_neg (by simpa using hp)]
          exact ⟨fun _ => ⟨log, rfl, hp⟩, fun _ => rfl⟩
        · rw [if_pos hp]
          constructor
          · intro h; simp at h
          · rintro ⟨log2, hlog2, hp2⟩
            rw [Option.some.injEq] at hlog2
            exact absurd (hlog2 ▸ hp2) hp
  · intro log hlog hne
    unfold cancelPendingMessage
    rw [hlog]
    dsimp only
    rw [if_pos hne]

/-- C2 (witness): cancelling the SENT job `"j1"` fails and leaves both the
table and the queue unchanged. -/
theorem C2_cancel_iff_pending_witness :
    cancelPendingMessage sentLogDb ["j1"] "j1" = (.notPending, sentLogDb, ["j1"]) :=
  (C2_cancel_iff_pending sentLogDb ["j1"] "j1").2 ⟨"j1", "w1", 1, .SENT, 0, 0, 1⟩
    (by decide) (by decide)

theorem failRun_eq (maxRetries : Nat) :
    ∀ k r, maxRetries - r = k → failRun maxRetries r = (maxRetries - r + 1, .FAILED) := by
  intro k
  induction k with
  | zero =>
      intro r hk
      have hge : ¬ r < maxRetries := by omega
      rw [failRun, if_neg hge]
      simp only [Prod.mk.injEq]
      exact ⟨by omega, by trivial⟩
  | succ k ih =>
      intro r hk
      have hlt : r < maxRetries := by omega
      rw [failRun, if_pos hlt, ih (r + 1) (by omega)]
      simp only [Prod.mk.injEq]
      exact ⟨by omega, by trivial⟩

/-- C5: with the configured maximum retry count (default 3 when the
environment variable is absent), a job all of whose delivery attempts fail
ends in terminal FAILED after exactly `maxRetries + 1` delivery attempts,
and no further attempt is made from a terminal state. -/
theorem C5_failed_after_maxRetries_plus_one_attempts :
    configMaxRetryCount none = some 3
    ∧ (∀ maxRetries : Nat, failRun maxRetries 0 = (maxRetries + 1, .FAILED))
    ∧ failRun 3 0 = (4, .FAILED)
    ∧ (∀ maxRetries rc, retryStepFail maxRetries ⟨.FAILED, rc⟩ = (⟨.FAILED, rc⟩, false))
    ∧ (∀ maxRetries rc, retryStepFail maxRetries ⟨.SENT, rc⟩ = (⟨.SENT, rc⟩, false)) := by
  have hrun : ∀ maxRetries : Nat, failRun maxRetries 0 = (maxRetries + 1, .FAILED) := by
    intro maxRetries
    have := failRun_eq maxRetries (maxRetries - 0) 0 rfl
    simpa using this
  exact ⟨rfl, hrun, hrun 3, fun _ _ => rfl, fun _ _ => rfl⟩

theorem autoConnect_foldl_opened (db : Db) :
    ∀ (accs : List WhatsappAccount) (pre : List Nat) (conn : ConnState) (next : Nat),
      (accs.foldl
        (fun acc a =>
          let r := initWhatsAppConnection db acc.2.1 acc.2.2 a.id
          (acc.1 ++ [a.id], r.2.1, r.2.2))
        (pre, conn, next)).1
        = pre ++ accs.map (fun a => a.id) := by
  intro accs
  induction accs with
  | nil => intro pre conn next; simp
  | cons a as ih =>
      intro pre conn next
      simp only [List.foldl_cons, List.map_cons]
      rw [ih]
      simp

/-- C9 (amended): at process start `autoConnectWhatsAppAccounts` opens every
account row present in the table — the query carries no filter, so
soft-deleted accounts are opened too — one at a time in table order (the
loop awaits each `initWhatsAppConnection` before the next). -/
theorem C9_bootstrap_opens_every_row (db : Db) (conn : ConnState) (next : Nat) :
    (autoConnectWhatsAppAccounts db conn next).1 = db.accounts.map (fun a => a.id) := by
  unfold autoConnectWhatsAppAccounts
  rw [autoConnect_foldl_opened db db.accounts [] conn next]
  simp

/-- C9 (counterexample): a soft-deleted account (non-null `deletedAt`) is
nevertheless opened by the bootstrap loop, refuting the claim that only
non-deleted accounts are opened. -/
theorem C9_bootstrap_counterexample :
    (autoConnectWhatsAppAccounts ⟨[⟨1, "p", .INACTIVE, some 5⟩], [], []⟩ ⟨[], []⟩ 0).1 = [1]
    ∧ (⟨1, "p", .INACTIVE, some 5⟩ : WhatsappAccount).deletedAt ≠ none :=
  ⟨rfl, by decide⟩



theorem find?_map_upsert_self (aid h : Nat) :
    ∀ l : List (Nat × Nat), l.any (fun s => s.1 = aid) = true →
      (l.map fun s => if s.1 = aid then (aid, h) else s).find? (fun s => s.1 = aid)
        = some (aid, h) := by
  intro l
  induction l with
  | nil => intro hany; simp at hany
  | cons p ps ih =>
      intro hany
      by_cases hp : p.1 = aid
      · simp [List.find?_cons, hp]
      · have hany2 : ps.any (fun s => s.1 = aid) = true := by
          simp only [List.any_cons, Bool.or_eq_true] at hany
          rcases hany with h1 | h1
          · exact absurd (by simpa using h1) hp
          · exact h1
        simp [List.find?_cons, hp, ih hany2]

theorem find?_map_upsert_other (aid h b : Nat) (hb : ¬ b = aid) :
    ∀ l : List (Nat × Nat),
      (l.map fun s => if s.1 = aid then (aid, h) else s).find? (fun s => s.1 = b)
        = l.find? (fun s => s.1 = b) := by
  intro l
  induction l with
  | nil => rfl
  | cons p ps ih =>
      by_cases hp : p.1 = aid
      · have h1 : ¬ ((aid, h).1 = b) := fun hh => hb hh.symm
        have h2 : ¬ (p.1 = b) := by rw [hp]; exact fun hh => hb hh.symm
        simp [List.find?_cons, hp, h1, h2, ih]
      · simp only [List.map_cons, List.find?_cons]
        have hhead : ((if p.1 = aid then (aid, h) else p) : Nat × Nat) = p := if_neg hp
        rw [hhead]
        by_cases hq : p.1 = b
        · simp [hq]
        · simp [hq, ih]

theorem lookupSocket_upsertSocket_self (sockets : List (Nat × Nat)) (aid h : Nat) :
    lookupSocket (upsertSocket sockets aid h) aid = some h := by
  unfold upsertSocket lookupSocket
  by_cases hany : sockets.any (fun s => s.1 = aid) = true
  · rw [if_pos hany, find?_map_upsert_self aid h sockets hany]
    rfl
  · rw [if_neg hany, List.find?_append]
    have hnone : sockets.find? (fun s => s.1 = aid) = none := by
      rw [List.find?_eq_none]
      intro x hx
      have hall := (List.any_eq_false.mp (by rwa [Bool.not_eq_true] at hany)) x hx
      simpa using hall
    rw [hnone]
    simp [List.find?_cons]

theorem lookupSocket_upsertSocket_other (sockets : List (Nat × Nat)) (aid h b : Nat)
    (hb : ¬ b = aid) :
    lookupSocket (upsertSocket sockets aid h) b = lookupSocket sockets b := by
  unfold upsertSocket lookupSocket
  by_cases hany : sockets.any (fun s => s.1 = aid) = true
  · rw [if_pos hany, find?_map_upsert_other aid h b hb sockets]
  · rw [if_neg hany, List.find?_append]
    have hnone : [(aid, h)].find? (fun s => s.1 = b) = none := by
      have hne : ¬ (aid = b) := fun hh => hb hh.symm
      simp [List.find?_cons, hne]
    rw [hnone]
    simp

theorem find?_map_updateStatus (aid : Nat) (st : WhatsappAccountStatus) :
    ∀ l : List WhatsappAccount, l.any (fun a => a.id = aid) = true →
      ∃ a : WhatsappAccount,
        (l.map fun a => if a.id = aid then { a with status := st } else a).find?
          (fun a => a.id = aid) = some { a with status := st } := by
  intro l
  induction l with
  | nil => intro hany; simp at hany
  | cons p ps ih =>
      intro hany
      by_cases hp : p.id = aid
      · refine ⟨p, ?_⟩
        have hkey : ({ p with status := st } : WhatsappAccount).id = p.id := rfl
        simp [List.find?_cons, hp, hkey]
      · have hany2 : ps.any (fun a => a.id = aid) = true := by
          simp only [List.any_cons, Bool.or_eq_true] at hany
          rcases hany with h1 | h1
          · exact absurd (by simpa using h1) hp
          · exact h1
        obtain ⟨a, ha⟩ := ih hany2
        refine ⟨a, ?_⟩
        simp [List.find?_cons, hp, ha]

theorem updateAccountStatus_isSome (db : Db) (aid : Nat) (st : WhatsappAccountStatus)
    (h : (findAccount db aid).isSome = true) :
    ∃ db1, updateAccountStatus db aid st = some db1 := by
  unfold findAccount at h
  rw [Option.isSome_iff_exists] at h
  obtain ⟨a, ha⟩ := h
  have hany : db.accounts.any (fun a => a.id = aid) = true := by
    rw [List.any_eq_true]
    have hpa := List.find?_some ha
    exact ⟨a, List.mem_of_find?_eq_some ha, hpa⟩
  unfold updateAccountStatus
  rw [if_pos hany]
  exact ⟨_, rfl⟩

theorem accountStatus_after_update (db : Db) (aid : Nat) (st : WhatsappAccountStatus)
    (db1 : Db) (h : updateAccountStatus db aid st = some db1) :
    accountStatus db1 aid = some st := by
  unfold updateAccountStatus at h
  by_cases hany : db.accounts.any (fun a => a.id = aid) = true
  · rw [if_pos hany, Option.some.injEq] at h
    subst h
    obtain ⟨a, ha⟩ := find?_map_updateStatus aid st db.accounts hany
    unfold accountStatus findAccount
    dsimp only
    rw [ha]
    rfl
  · rw [if_neg hany] at h
    cases h

theorem lookupSocket_removeConn (c : ConnState) (aid : Nat) :
    lookupSocket (removeConn c aid).sockets aid = none := by
  unfold removeConn lookupSocket
  dsimp only
  have hnone : (c.sockets.filter fun s => ¬ s.1 = aid).find? (fun s => s.1 = aid) = none := by
    rw [List.find?_eq_none]
    intro x hx
    rw [List.mem_filter] at hx
    simpa using hx.2
  rw [hnone]
  rfl

/-- C6: on a transport disconnect the handler persists status INACTIVE for
the account; when the disconnect status code is not the terminal logged-out
code it schedules a reconnect after the fixed 5000 ms delay and keeps the
in-memory handle; when it is the logged-out code it discards the handle,
schedules no reconnect, and the status stays INACTIVE. -/
theorem C6_disconnect_handling (db : Db) (conn : ConnState) (aid : Nat)
    (code : Option Nat) (h : (findAccount db aid).isSome = true) :
    accountStatus (handleConnectionClose db conn aid code).db aid = some .INACTIVE
    ∧ (code ≠ some loggedOutStatusCode →
        (handleConnectionClose db conn aid code).reconnectDelayMs = some 5000
        ∧ (handleConnectionClose db conn aid code).conn = conn)
    ∧ (code = some loggedOutStatusCode →
        (handleConnectionClose db conn aid code).reconnectDelayMs = none
        ∧ lookupSocket (handleConnectionClose db conn aid code).conn.sockets aid = none) := by
  obtain ⟨db1, hdb1⟩ := updateAccountStatus_isSome db aid .INACTIVE h
  have hstat := accountStatus_after_update db aid .INACTIVE db1 hdb1
  unfold handleConnectionClose
  rw [hdb1]
  dsimp only
  by_cases hc : code = some loggedOutStatusCode
  · rw [if_neg (not_not_intro hc)]
    exact ⟨hstat, fun hne => absurd hc hne,
      fun _ => ⟨rfl, lookupSocket_removeConn conn aid⟩⟩
  · rw [if_pos hc]
    exact ⟨hstat, fun _ => ⟨rfl, rfl⟩, fun heq => absurd heq hc⟩

/-- C6 (witness): account 7 with a live handle — on a logged-out disconnect
(code 401) status becomes INACTIVE, the handle is dropped and no reconnect is
scheduled; on a transient disconnect (code 428) the 5000 ms reconnect is
scheduled. -/
theorem C6_disconnect_handling_witness :
    accountStatus
        (handleConnectionClose ⟨[⟨7, "p", .ACTIVE, none⟩], [], []⟩ ⟨[(7, 9)], []⟩ 7
          (some 401)).db 7
      = some .INACTIVE
    ∧ (handleConnectionClose ⟨[⟨7, "p", .ACTIVE, none⟩], [], []⟩ ⟨[(7, 9)], []⟩ 7
        (some 401)).reconnectDelayMs = none
    ∧ lookupSocket
        (handleConnectionClose ⟨[⟨7, "p", .ACTIVE, none⟩], [], []⟩ ⟨[(7, 9)], []⟩ 7
          (some 401)).conn.sockets 7 = none
    ∧ (handleConnectionClose ⟨[⟨7, "p", .ACTIVE, none⟩], [], []⟩ ⟨[(7, 9)], []⟩ 7
        (some 428)).reconnectDelayMs = some 5000 := by
  have h1 := C6_disconnect_handling ⟨[⟨7, "p", .ACTIVE, none⟩], [], []⟩ ⟨[(7, 9)], []⟩ 7
    (some 401) (by decide)
  have h2 := C6_disconnect_handling ⟨[⟨7, "p", .ACTIVE, none⟩], [], []⟩ ⟨[(7, 9)], []⟩ 7
    (some 428) (by decide)
  exact ⟨h1.1, (h1.2.2 rfl).1, (h1.2.2 rfl).2, (h2.2.1 (by decide)).1⟩

/-- C7 (amended): calling `initWhatsAppConnection` for an existing account
always returns `null` (the "success" result), but it is not a no-op: it
creates a fresh socket and stores it under the account id, replacing any
existing handle; handles of other accounts are untouched. -/
theorem C7_open_not_idempotent (db : Db) (conn : ConnState) (next aid : Nat)
    (hacc : (findAccount db aid).isSome = true)
    (hfresh : ∀ p ∈ conn.sockets, p.2 < next) :
    (initWhatsAppConnection db conn next aid).1 = none
    ∧ lookupSocket (initWhatsAppConnection db conn next aid).2.1.sockets aid = some next
    ∧ lookupSocket conn.sockets aid ≠ some next
    ∧ ∀ b, ¬ b = aid →
        lookupSocket (initWhatsAppConnection db conn next aid).2.1.sockets b
          = lookupSocket conn.sockets b := by
  rw [Option.isSome_iff_exists] at hacc
  obtain ⟨a, ha⟩ := hacc
  unfold initWhatsAppConnection
  rw [ha]
  dsimp only
  refine ⟨rfl, lookupSocket_upsertSocket_self conn.sockets aid next, ?_, ?_⟩
  · intro hctr
    unfold lookupSocket at hctr
    cases hq : conn.sockets.find? (fun s => s.1 = aid) with
    | none => rw [hq] at hctr; cases hctr
    | some q =>
        rw [hq] at hctr
        simp only [Option.map_some', Option.some.injEq] at hctr
        have := hfresh q (List.mem_of_find?_eq_some hq)
        omega
  · intro b hb
    exact lookupSocket_upsertSocket_other conn.sockets aid next b hb

/-- C7 (counterexample): with account 1 already holding handle 10, a second
`initWhatsAppConnection` call returns success but replaces the handle with a
fresh one — the connection state is not left unchanged, refuting the claimed
no-op idempotency. -/
theorem C7_open_not_idempotent_counterexample :
    (initWhatsAppConnection ⟨[⟨1, "p", .ACTIVE, none⟩], [], []⟩ ⟨[(1, 10)], []⟩ 11 1).1
      = none
    ∧ lookupSocket
        (initWhatsAppConnection ⟨[⟨1, "p", .ACTIVE, none⟩], [], []⟩ ⟨[(1, 10)], []⟩
          11 1).2.1.sockets 1 = some 11
    ∧ lookupSocket [(1, 10)] 1 = some 10
    ∧ (10 : Nat) ≠ 11 :=
  ⟨rfl, rfl, rfl, by decide⟩

/-- C7 (witness): the amended statement at the concrete one-account state. -/
theorem C7_open_not_idempotent_witness :
    lookupSocket
        (initWhatsAppConnection ⟨[⟨1, "p", .ACTIVE, none⟩], [], []⟩ ⟨[(1, 10)], []⟩
          11 1).2.1.sockets 1 = some 11
    ∧ lookupSocket [(1, 10)] 1 ≠ some 11 := by
  have h := C7_open_not_idempotent ⟨[⟨1, "p", .ACTIVE, none⟩], [], []⟩ ⟨[(1, 10)], []⟩
    11 1 (by decide) (by decide)
  exact ⟨h.2.1, h.2.2.1⟩



theorem validateRow_none (r : SelectRow) (h : validateRow r = none) :
    truthy r.title = true ∧ truthy r.id = true := by
  unfold validateRow at h
  by_cases hc : ¬ truthy r.title ∨ ¬ truthy r.id
  · rw [if_pos hc] at h; cases h
  · simp only [not_or, not_not] at hc
    exact hc

theorem validateSection_none (s : SelectSection) (h : validateSection s = none) :
    truthy s.title = true
    ∧ ∃ rows, s.rows = some rows
      ∧ ∀ r ∈ rows, truthy r.title = true ∧ truthy r.id = true := by
  unfold validateSection at h
  by_cases hc : ¬ truthy s.title ∨ s.rows = none
  · rw [if_pos hc] at h; cases h
  · rw [if_neg hc] at h
    simp only [not_or, not_not] at hc
    obtain ⟨ht, hrows⟩ := hc
    obtain ⟨rows, hr⟩ := Option.ne_none_iff_exists'.mp hrows
    refine ⟨ht, rows, hr, ?_⟩
    rw [hr] at h
    simp only [Option.getD_some] at h
    rw [List.findSome?_eq_none_iff] at h
    intro r hrm
    exact validateRow_none r (h r hrm)

theorem validateButton_none (b : JsButton) (h : validateButton b = none) :
    truthy b.type = true ∧ truthy b.display_text = true
    ∧ (b.type = some "cta_copy" → truthy b.id = true ∧ truthy b.copy_code = true)
    ∧ (b.type = some "single_select" →
        truthy b.title = true
        ∧ ∃ secs, b.sections = some secs
          ∧ ∀ sec ∈ secs, truthy sec.title = true
            ∧ ∃ rows, sec.rows = some rows
              ∧ ∀ r ∈ rows, truthy r.title = true ∧ truthy r.id = true) := by
  unfold validateButton at h
  by_cases hc : ¬ truthy b.type ∨ ¬ truthy b.display_text
  · rw [if_pos hc] at h; cases h
  · rw [if_neg hc] at h
    simp only [not_or, not_not] at hc
    refine ⟨hc.1, hc.2, ?_, ?_⟩
    · intro hcopy
      rw [hcopy] at h
      rw [if_neg (by decide), if_neg (by decide), if_neg (by decide), if_pos rfl] at h
      by_cases hcc : ¬ truthy b.id ∨ ¬ truthy b.copy_code
      · rw [if_pos hcc] at h; cases h
      · simp only [not_or, not_not] at hcc
        exact hcc
    · intro hsel
      rw [hsel] at h
      rw [if_neg (by decide), if_neg (by decide), if_neg (by decide), if_neg (by decide),
        if_pos rfl] at h
      by_cases hts : ¬ truthy b.title ∨ b.sections = none
      · rw [if_pos hts] at h; cases h
      · rw [if_neg hts] at h
        simp only [not_or, not_not] at hts
        obtain ⟨ht, hsecs⟩ := hts
        obtain ⟨secs, hs⟩ := Option.ne_none_iff_exists'.mp hsecs
        refine ⟨ht, secs, hs, ?_⟩
        rw [hs] at h
        simp only [Option.getD_some] at h
        rw [List.findSome?_eq_none_iff] at h
        intro sec hsecm
        exact validateSection_none sec (h sec hsecm)

/-- C8 (amended): a button payload is validated synchronously before
enqueueing, and an enqueued payload satisfies the per-action structural
requirements the code checks: every button has a truthy type and
display text; a `cta_copy` button carries both an id and a copy code; a
`single_select` button carries a title and a sections array, every present
section carries a title and a rows array, and every present row carries a
title and an id.  The code does **not** require at least one section or at
least one row — empty arrays pass validation. -/
theorem C8_button_validation (bs : List JsButton)
    (h : submitButtonMessage (some bs) = .enqueued) :
    bs ≠ []
    ∧ ∀ b ∈ bs,
        truthy b.type = true ∧ truthy b.display_text = true
        ∧ (b.type = some "cta_copy" → truthy b.id = true ∧ truthy b.copy_code = true)
        ∧ (b.type = some "single_select" →
            truthy b.title = true
            ∧ ∃ secs, b.sections = some secs
              ∧ ∀ sec ∈ secs, truthy sec.title = true
                ∧ ∃ rows, sec.rows = some rows
                  ∧ ∀ r ∈ rows, truthy r.title = true ∧ truthy r.id = true) := by
  unfold submitButtonMessage at h
  dsimp only at h
  by_cases he : bs.isEmpty = true
  · rw [if_pos he] at h; cases h
  · rw [if_neg he] at h
    cases hv : bs.findSome? validateButton with
    | some e => rw [hv] at h; simp at h
    | none =>
        rw [hv] at h
        refine ⟨?_, ?_⟩
        · intro hnil
          subst hnil
          exact he rfl
        · intro b hb
          rw [List.findSome?_eq_none_iff] at hv
          exact validateButton_none b (hv b hb)

/-- C8 (counterexample): a `single_select` button with an **empty** sections
array passes validation and is enqueued, refuting the claim that a
single-select action must carry at least one section. -/
theorem C8_button_validation_counterexample :
    submitButtonMessage (some [emptySelectButton]) = .enqueued
    ∧ emptySelectButton.sections = some [] :=
  ⟨rfl, rfl⟩

/-- C8 (witness): a list with a well-formed `cta_copy` and `single_select`
button is enqueued, and the enqueued `cta_copy` button carries both an id
and a copy code. -/
theorem C8_button_validation_witness :
    submitButtonMessage (some [goodCopyButton, goodSelectButton]) = .enqueued
    ∧ truthy goodCopyButton.id = true ∧ truthy goodCopyButton.copy_code = true := by
  have h := C8_button_validation [goodCopyButton, goodSelectButton] rfl
  exact ⟨rfl, (h.2 goodCopyButton (by decide)).2.2.1 rfl⟩


end WaApi
